/-
Verification of the SolarSynkV3 core against its specification.

Shallow embedding of the repository's Python sources:
  src/gettoken.py       : token acquisition (gettoken, _get_public_key,
                          _encrypt_password, _authenticate)
  src/main.py           : run orchestration (main, process_inverter,
                          execute_api_calls, execute_settings_management,
                          fetch_data)
  src/entity_manager.py : check_entity_exists
External call outcomes (HTTP responses, raised exceptions, file existence)
are supplied through explicit environment records; each embedded function is
a pure function of that environment, producing an event trace and a state.
-/
import Mathlib

namespace SolarSynk

/-! ## Byte-sequence and big-integer primitives

`bytesToNat` is the big-endian octet-string-to-integer conversion (OS2IP)
and `natToBytes` its inverse (I2OSP), as used by the RSA PKCS#1 v1.5
encryption primitive that `cryptography`'s `public_key.encrypt(...,
PKCS1v15())` call in src/gettoken.py performs. -/

def bytesToNat (l : List Nat) : Nat := l.foldl (fun a b => a * 256 + b) 0

def natToBytes : Nat → Nat → List Nat
  | 0, _ => []
  | k + 1, n => natToBytes k (n / 256) ++ [n % 256]

/-! ## RSA with PKCS#1 v1.5 padding

Models the library primitive invoked by src/gettoken.py `_encrypt_password`:
PKCS#1 v1.5 encryption padding (0x00 0x02, nonzero pad bytes, 0x00
separator, message) followed by modular exponentiation, and the matching
decryption. -/

structure RSAPublicKey where
  n : Nat
  e : Nat

structure RSAPrivateKey where
  n : Nat
  d : Nat

def rsaep (key : RSAPublicKey) (m : Nat) : Nat := m ^ key.e % key.n

def rsadp (key : RSAPrivateKey) (c : Nat) : Nat := c ^ key.d % key.n

def pkcs1v15_pad (ps msg : List Nat) : List Nat := 0 :: 2 :: ps ++ 0 :: msg

def unpadTail : List Nat → Option (List Nat)
  | 0 :: m => some m
  | _ => none

def pkcs1v15_unpad : List Nat → Option (List Nat)
  | 0 :: 2 :: rest => unpadTail (rest.dropWhile (fun b => b != 0))
  | _ => none

def pkcs1v15_encrypt (k : Nat) (key : RSAPublicKey) (ps msg : List Nat) : List Nat :=
  natToBytes k (rsaep key (bytesToNat (pkcs1v15_pad ps msg)))

def pkcs1v15_decrypt (k : Nat) (key : RSAPrivateKey) (c : List Nat) : Option (List Nat) :=
  pkcs1v15_unpad (natToBytes k (rsadp key (bytesToNat c)))

/-! ## Base64

src/gettoken.py `_encrypt_password` returns
`base64.b64encode(ciphertext).decode('utf-8')`; standard base64 with `=`
padding, encoded three octets to four alphabet characters. -/

def b64Chars : List Char :=
  "ABCDEFGHIJKLMNOPQRSTUVWXYZabcdefghijklmnopqrstuvwxyz0123456789+/".toList

def b64Enc (i : Nat) : Char := b64Chars.getD i '?'

def b64Dec (c : Char) : Option Nat := b64Chars.indexOf? c

def b64EncodeChunks : List Nat → List Char
  | [] => []
  | [b1] => [b64Enc (b1 / 4), b64Enc (b1 % 4 * 16), '=', '=']
  | [b1, b2] => [b64Enc (b1 / 4), b64Enc (b1 % 4 * 16 + b2 / 16), b64Enc (b2 % 16 * 4), '=']
  | b1 :: b2 :: b3 :: rest =>
    b64Enc (b1 / 4) :: b64Enc (b1 % 4 * 16 + b2 / 16) ::
      b64Enc (b2 % 16 * 4 + b3 / 64) :: b64Enc (b3 % 64) :: b64EncodeChunks rest

def b64DecodeChunks : List Char → Option (List Nat)
  | [] => some []
  | c1 :: c2 :: c3 :: c4 :: rest =>
    match b64Dec c1, b64Dec c2 with
    | some v1, some v2 =>
      if c3 = '=' ∧ c4 = '=' ∧ rest = [] then
        some [v1 * 4 + v2 / 16]
      else if c4 = '=' ∧ rest = [] then
        match b64Dec c3 with
        | some v3 => some [v1 * 4 + v2 / 16, v2 % 16 * 16 + v3 / 4]
        | none => none
      else
        match b64Dec c3, b64Dec c4, b64DecodeChunks rest with
        | some v3, some v4, some bs =>
          some ((v1 * 4 + v2 / 16) :: (v2 % 16 * 16 + v3 / 4) :: (v3 % 4 * 64 + v4) :: bs)
        | _, _, _ => none
    | _, _ => none
  | _ => none

def b64Encode (bs : List Nat) : String := String.mk (b64EncodeChunks bs)

def b64Decode (s : String) : Option (List Nat) := b64DecodeChunks s.toList

/-- src/gettoken.py `_encrypt_password`: PKCS#1 v1.5 encrypt the secret
(already UTF-8 encoded, given here as its byte list) under the public key,
then base64-encode the ciphertext into a string.  `k` is the modulus byte
length and `ps` the random nonzero padding bytes drawn by the library. -/
def encrypt_password (k : Nat) (key : RSAPublicKey) (ps msg : List Nat) : String :=
  b64Encode (pkcs1v15_encrypt k key ps msg)

/-- The matching PKCS#1 v1.5 decryption under the private key: base64-decode
then RSA-decrypt and strip the padding. -/
def decrypt_password (k : Nat) (key : RSAPrivateKey) (s : String) : Option (List Nat) :=
  (b64Decode s).bind (pkcs1v15_decrypt k key)

/-! ## PEM wrapping of the fetched public key (src/gettoken.py `_get_public_key`)

The code does `StringIO().writelines(['-----BEGIN PUBLIC KEY-----',
response.json()['data'], '-----END PUBLIC KEY-----'])`.  Python's
`writelines` adds no separators: the result is the direct concatenation of
the three strings. -/

def PEM_HEADER : String := "-----BEGIN PUBLIC KEY-----"

def PEM_FOOTER : String := "-----END PUBLIC KEY-----"

def wrap_public_key (data : String) : String := PEM_HEADER ++ data ++ PEM_FOOTER

/-- The wrapping as the specification describes it: header, payload and
footer as three separate lines.  Stated from the spec's words, for
comparison with `wrap_public_key` (which is translated from the source). -/
def wrap_public_key_spec (data : String) : String :=
  PEM_HEADER ++ "\n" ++ data ++ "\n" ++ PEM_FOOTER

/-! ## Token acquisition (src/gettoken.py) -/

/-- Kinds of exceptions the Python code distinguishes in its handlers. -/
inductive ExcKind where
  | timeout
  | requestError
  | jsonError
  | other
  deriving DecidableEq, Repr

/-- Outcome of one external call: returns a value, or raises. -/
inductive Outcome (α : Type) where
  | ok (a : α)
  | exn (e : ExcKind)
  deriving DecidableEq, Repr

/-- Parsed JSON body of the login response: its `msg` field and (when
present) `data.access_token`. -/
structure AuthResponse where
  msg : String
  accessToken : String
  deriving DecidableEq, Repr

/-- Environment for one `gettoken` run: the outcome of the public-key GET,
of the encryption step, and of the login POST. -/
structure TokenEnv where
  keyFetch : Outcome String
  encryptStep : Outcome Unit
  auth : Outcome AuthResponse

/-- src/gettoken.py `_authenticate`, response handling: the token returned
and the server message logged.  `msg == "Success"` yields
`data.access_token`; anything else yields the empty token, logging the
server's `msg` verbatim in both branches. -/
structure AuthResult where
  token : String
  loggedMsg : String
  deriving DecidableEq, Repr

def authenticate (r : AuthResponse) : AuthResult :=
  if r.msg = "Success" then ⟨r.accessToken, r.msg⟩ else ⟨"", r.msg⟩

/-- src/gettoken.py `_authenticate`, request payload: the JSON body posted
to the login endpoint, in source order. -/
def authPayload (username encryptedPassword : String) : List (String × String) :=
  [("areaCode", "sunsynk"),
   ("client_id", "csp-web"),
   ("grant_type", "password"),
   ("password", encryptedPassword),
   ("source", "sunsynk"),
   ("username", username)]

/-- src/gettoken.py: the `timeout=10` argument passed to `requests.post`. -/
def AUTH_TIMEOUT_SECONDS : Nat := 10

/-- src/gettoken.py `gettoken`: `bearer_token` starts as `""`; the key
fetch, the encryption and the login run inside one `try` whose handlers
(`Timeout`, `RequestException`, `JSONDecodeError`, `Exception`) all fall
through to `return bearer_token`, so every raised exception yields `""`. -/
def gettoken (t : TokenEnv) : String :=
  match t.keyFetch with
  | .exn _ => ""
  | .ok _ =>
    match t.encryptStep with
    | .exn _ => ""
    | .ok _ =>
      match t.auth with
      | .exn _ => ""
      | .ok r => (authenticate r).token

/-- Characterisation of "token acquisition failed" used by the claims: any
step raised, or the login response's `msg` differs from `"Success"`. -/
def tokenAcqFails (t : TokenEnv) : Bool :=
  match t.keyFetch with
  | .exn _ => true
  | .ok _ =>
    match t.encryptStep with
    | .exn _ => true
    | .ok _ =>
      match t.auth with
      | .exn _ => true
      | .ok r => !(r.msg == "Success")

/-! ## Run orchestration (src/main.py)

The orchestrator is embedded as a pure function from an environment (the
outcomes of all external calls) to an event trace plus a final state.  The
state carries the transient `settings.json` cache file and the per-serial
staging entity values. -/

/-- Provenance of the transient `settings.json` cache file: left over from
a previous run, or written by iteration `i`'s provider-settings download. -/
inductive CacheTag where
  | stale
  | written (i : Nat)
  deriving DecidableEq, Repr

/-- Observable events of one run, tagged with the device iteration index. -/
inductive Event where
  | cacheRemoved (i : Nat)
  | connTested (i : Nat) (ok : Bool)
  | deviceSkipped (i : Nat)
  | fetched (i : Nat) (label : String)
  | fetchErrorLogged (i : Nat) (label : String)
  | settingsDownloaded (i : Nat) (ok : Bool)
  | cacheRead (i : Nat) (tag : Option CacheTag)
  | updateForwarded (i : Nat) (ok : Bool)
  | stagingReset (i : Nat)
  | completed
  deriving DecidableEq, Repr

def Event.idx : Event → Option Nat
  | .cacheRemoved i => some i
  | .connTested i _ => some i
  | .deviceSkipped i => some i
  | .fetched i _ => some i
  | .fetchErrorLogged i _ => some i
  | .settingsDownloaded i _ => some i
  | .cacheRead i _ => some i
  | .updateForwarded i _ => some i
  | .stagingReset i => some i
  | .completed => none

/-- Environment of one orchestrator run: configuration values and the
outcome of every external call, indexed by device iteration. -/
structure Env where
  token : TokenEnv
  serials : List String
  connOk : Nat → Bool
  fetchExn : Nat → String → Option ExcKind
  staged : String → String
  downloadOk : Nat → Bool
  updateOk : Nat → Bool
  cacheExists0 : Bool

/-- Mutable facts of a run: the transient `settings.json` cache file and
the staging entity value per serial. -/
structure RunState where
  cache : Option CacheTag
  staged : String → String

/-- src/main.py `execute_api_calls`: the fixed registry of the eight
telemetry operations, by their logging labels (the `getapi` functions
themselves are HTTP wrappers external to this core). -/
def api_calls : List String :=
  ["Inverter Information", "PV Data", "Grid Data", "Battery Data",
   "Load Data", "Output Data", "DC & AC Temperature Data", "Inverter Settings"]

/-- src/main.py `fetch_data`: runs one telemetry operation inside
`try/except Exception`; a raised exception is caught and logged with the
operation's description, otherwise the fetch completes. -/
def fetch_data (env : Env) (i : Nat) (label : String) : Event :=
  match env.fetchExn i label with
  | some _ => .fetchErrorLogged i label
  | none => .fetched i label

/-- src/main.py `execute_api_calls`: one thread per registry entry, each
running `fetch_data`; all are joined before returning.  Each operation's
outcome depends only on its own external call, so the joined trace is the
registry mapped through `fetch_data`. -/
def execute_api_calls (env : Env) (i : Nat) : List Event :=
  api_calls.map (fetch_data env i)

/-- src/main.py `execute_settings_management`: calls
`settingsmanager.DownloadProviderSettings`, then
`settingsmanager.GetNewSettingsFromHAEntity`, then
`settingsmanager.ResetSettingsEntity`, in a straight line.
Modelled from the spec: the three settingsmanager functions themselves are
not under src/ (only this caller is).  Per the spec, the download writes
the transient cache on success and on failure logs a sync error and
returns (non-fatal); the HA-entity step reads the cache and the staging
entity and, when the staged value is non-empty, forwards one update whose
failure is logged and returns; the reset step sets the staging entity to
the empty string.  None of the three propagates an exception. -/
def execute_settings_management (env : Env) (i : Nat) (serial : String) (st : RunState) :
    List Event × RunState :=
  (Event.settingsDownloaded i (env.downloadOk i) ::
    Event.cacheRead i (if env.downloadOk i then some (CacheTag.written i) else st.cache) ::
    (if st.staged serial = "" then [] else [Event.updateForwarded i (env.updateOk i)]) ++
    [Event.stagingReset i],
   { cache := if env.downloadOk i then some (CacheTag.written i) else st.cache,
     staged := fun s => if s = serial then "" else st.staged s })

/-- src/main.py `process_inverter`: removes `settings.json` if it exists,
then runs the connectivity test (`postapi.ConnectionTest` with the fixed
test payload); on `"Connection Success"` it runs `execute_api_calls` then
`execute_settings_management`, otherwise it logs and skips the device. -/
def process_inverter (env : Env) (i : Nat) (serial : String) (st : RunState) :
    List Event × RunState :=
  let evClean : List Event := if st.cache.isSome then [Event.cacheRemoved i] else []
  let stClean : RunState := { st with cache := none }
  if env.connOk i then
    (evClean ++ Event.connTested i true ::
      (execute_api_calls env i ++ (execute_settings_management env i serial stClean).1),
     (execute_settings_management env i serial stClean).2)
  else
    (evClean ++ [Event.connTested i false, Event.deviceSkipped i], stClean)

/-- src/main.py `main`'s device loop: sequential iteration over the serial
list, threading the state. -/
def runDevices (env : Env) : List String → Nat → RunState → List Event × RunState
  | [], _, st => ([], st)
  | s :: rest, i, st =>
    ((process_inverter env i s st).1 ++
       (runDevices env rest (i + 1) (process_inverter env i s st).2).1,
     (runDevices env rest (i + 1) (process_inverter env i s st).2).2)

def initialState (env : Env) : RunState :=
  { cache := if env.cacheExists0 then some CacheTag.stale else none,
    staged := env.staged }

/-- src/main.py `main`: gets the bearer token; the device loop runs only
when the token is non-empty (`if bearer_token:`); the completion message
prints in either case. -/
def main (env : Env) : List Event × RunState :=
  if gettoken env.token = "" then
    ([Event.completed], initialState env)
  else
    ((runDevices env env.serials 0 (initialState env)).1 ++ [Event.completed],
     (runDevices env env.serials 0 (initialState env)).2)

/-! ## Entity existence check (src/entity_manager.py) -/

/-- Outcome of loading `/data/options.json` inside
`get_ha_url_and_headers`: success, or a raised non-request exception
(`load_ha_settings` re-raises file and JSON errors; key lookups may raise
`KeyError`). -/
inductive HAConfigOutcome where
  | ok
  | loadFailure (msg : String)
  deriving DecidableEq, Repr

/-- Outcome of the `requests.get` on `/api/states/{entity_id}`: an HTTP
status code, or a raised `RequestException`. -/
inductive HAReqOutcome where
  | status (code : Nat)
  | requestExn (msg : String)
  deriving DecidableEq, Repr

/-- src/entity_manager.py `check_entity_exists`: inside `try`, loads the
config and issues the GET; 200 returns True, 404 returns False, other
error statuses go through `raise_for_status` whose `HTTPError` (a
`RequestException`) the `except` clause turns into False, non-error
statuses fall through to the final `return False`.  A config-load failure
raises an exception the `except requests.exceptions.RequestException`
clause does not catch, so it propagates. -/
def check_entity_exists (cfg : HAConfigOutcome) (req : HAReqOutcome) : Except String Bool :=
  match cfg with
  | .loadFailure m => .error m
  | .ok =>
    match req with
    | .requestExn _ => .ok false
    | .status c =>
      if c = 200 then .ok true
      else if c = 404 then .ok false
      else .ok false

/-- Classifies a trace event as a logged telemetry-fetch failure. -/
def eventIsFetchError : Event → Bool
  | .fetchErrorLogged _ _ => true
  | _ => false

/-- Classifies a trace event as a completed telemetry fetch. -/
def eventIsFetchOk : Event → Bool
  | .fetched _ _ => true
  | _ => false

/-- The operation label carried by a telemetry event. -/
def eventLabel : Event → Option String
  | .fetched _ l => some l
  | .fetchErrorLogged _ l => some l
  | _ => none

/-! ## Concrete witness environments -/

def tokEnvOk : TokenEnv :=
  { keyFetch := .ok "KEYDATA", encryptStep := .ok (), auth := .ok ⟨"Success", "tok123"⟩ }

def tokEnvTimeout : TokenEnv :=
  { keyFetch := .exn .timeout, encryptStep := .ok (), auth := .ok ⟨"Success", "tok123"⟩ }

/-- One device, token good, the "PV Data" fetch raises, everything else
succeeds. -/
def envOneFetchFails : Env :=
  { token := tokEnvOk,
    serials := ["A1"],
    connOk := fun _ => true,
    fetchExn := fun _ label => if label = "PV Data" then some .timeout else none,
    staged := fun _ => "",
    downloadOk := fun _ => true,
    updateOk := fun _ => true,
    cacheExists0 := false }

/-- The spec's end-to-end scenario: devices `["A1", "A2"]`, token good,
connectivity succeeds for "A1" and fails for "A2"; "A1" has a staged
setting and a stale cache file exists at run start. -/
def envScenario : Env :=
  { token := tokEnvOk,
    serials := ["A1", "A2"],
    connOk := fun i => i == 0,
    fetchExn := fun _ _ => none,
    staged := fun s => if s = "A1" then "0600" else "",
    downloadOk := fun _ => true,
    updateOk := fun _ => true,
    cacheExists0 := true }

/-- Token acquisition times out; one device configured. -/
def envTokenFails : Env :=
  { token := tokEnvTimeout,
    serials := ["A1"],
    connOk := fun _ => true,
    fetchExn := fun _ _ => none,
    staged := fun _ => "",
    downloadOk := fun _ => true,
    updateOk := fun _ => true,
    cacheExists0 := false }

/-- A run state with a staged setting for "A1" and no cache file. -/
def stStagedA1 : RunState :=
  { cache := none, staged := fun s => if s = "A1" then "0600" else "" }

/-! ## Helper lemmas: byte sequences -/

theorem bytesToNat_append_singleton (xs : List Nat) (b : Nat) :
    bytesToNat (xs ++ [b]) = bytesToNat xs * 256 + b := by
  simp [bytesToNat, List.foldl_append]

theorem bytesToNat_lt (l : List Nat) (h : ∀ b ∈ l, b < 256) :
    bytesToNat l < 256 ^ l.length := by
  induction l using List.reverseRecOn with
  | nil => simp [bytesToNat]
  | append_singleton xs b ih =>
    have hb : b < 256 := h b (by simp)
    have hxs : bytesToNat xs < 256 ^ xs.length := ih fun c hc => h c (by simp [hc])
    rw [bytesToNat_append_singleton]
    simp only [List.length_append, List.length_singleton]
    rw [pow_succ]
    omega

theorem bytesToNat_natToBytes (k m : Nat) (h : m < 256 ^ k) :
    bytesToNat (natToBytes k m) = m := by
  induction k generalizing m with
  | zero =>
    simp [natToBytes, bytesToNat]
    omega
  | succ k ih =>
    rw [natToBytes, bytesToNat_append_singleton, ih]
    · omega
    · rw [pow_succ] at h
      omega

theorem natToBytes_bytesToNat (l : List Nat) (h : ∀ b ∈ l, b < 256) :
    natToBytes l.length (bytesToNat l) = l := by
  induction l using List.reverseRecOn with
  | nil => simp [natToBytes, bytesToNat]
  | append_singleton xs b ih =>
    have hb : b < 256 := h b (by simp)
    rw [bytesToNat_append_singleton]
    simp only [List.length_append, List.length_singleton]
    rw [natToBytes]
    have hdiv : (bytesToNat xs * 256 + b) / 256 = bytesToNat xs := by omega
    have hmod : (bytesToNat xs * 256 + b) % 256 = b := by omega
    rw [hdiv, hmod, ih fun c hc => h c (by simp [hc])]

theorem natToBytes_bytes_lt (k m : Nat) : ∀ b ∈ natToBytes k m, b < 256 := by
  induction k generalizing m with
  | zero => simp [natToBytes]
  | succ k ih =>
    intro b hb
    rw [natToBytes] at hb
    rcases List.mem_append.mp hb with h | h
    · exact ih _ b h
    · simp at h
      omega

/-! ## Helper lemmas: RSA -/

theorem pow_fermat_aux (p u m : Nat) (hp : p.Prime) :
    m ^ (u * (p - 1) + 1) ≡ m [MOD p] := by
  haveI : Fact p.Prime := ⟨hp⟩
  apply (ZMod.natCast_eq_natCast_iff _ _ _).mp
  push_cast
  by_cases hz : (m : ZMod p) = 0
  · rw [hz, zero_pow (by omega)]
  · rw [pow_add, pow_one, mul_comm u (p - 1), pow_mul,
      ZMod.pow_card_sub_one_eq_one hz, one_pow, one_mul]

theorem rsa_roundtrip (p q e d m : Nat) (hp : p.Prime) (hq : q.Prime) (hpq : p ≠ q)
    (hed : e * d ≡ 1 [MOD (p - 1) * (q - 1)]) (hm : m < p * q) :
    (m ^ e % (p * q)) ^ d % (p * q) = m := by
  have hp2 := hp.two_le
  have hq2 := hq.two_le
  have hM : 2 ≤ (p - 1) * (q - 1) := by
    rcases Nat.lt_or_ge p 3 with h3 | h3
    · have hp2' : p = 2 := by omega
      have hq3 : 3 ≤ q := by omega
      rw [hp2']
      omega
    · have h1 : 2 ≤ p - 1 := by omega
      have h2 : 1 ≤ q - 1 := by omega
      calc 2 = 2 * 1 := rfl
        _ ≤ (p - 1) * (q - 1) := Nat.mul_le_mul h1 h2
  obtain ⟨t, ht⟩ : ∃ t, e * d = t * ((p - 1) * (q - 1)) + 1 := by
    have hmod : e * d % ((p - 1) * (q - 1)) = 1 := by
      have h1 : (1 : Nat) % ((p - 1) * (q - 1)) = 1 := Nat.mod_eq_of_lt (by omega)
      have := hed
      unfold Nat.ModEq at this
      omega
    refine ⟨e * d / ((p - 1) * (q - 1)), ?_⟩
    conv_lhs => rw [← Nat.div_add_mod (e * d) ((p - 1) * (q - 1))]
    rw [hmod, Nat.mul_comm]
  have hmp : m ^ (e * d) ≡ m [MOD p] := by
    have := pow_fermat_aux p (t * (q - 1)) m hp
    have hexp : t * (q - 1) * (p - 1) + 1 = e * d := by rw [ht]; ring
    rwa [hexp] at this
  have hmq : m ^ (e * d) ≡ m [MOD q] := by
    have := pow_fermat_aux q (t * (p - 1)) m hq
    have hexp : t * (p - 1) * (q - 1) + 1 = e * d := by rw [ht]; ring
    rwa [hexp] at this
  have hcop : Nat.Coprime p q := (Nat.coprime_primes hp hq).mpr hpq
  have hn : m ^ (e * d) ≡ m [MOD p * q] :=
    (Nat.modEq_and_modEq_iff_modEq_mul hcop).mp ⟨hmp, hmq⟩
  calc (m ^ e % (p * q)) ^ d % (p * q)
      = (m ^ e) ^ d % (p * q) := (Nat.pow_mod _ _ _).symm
    _ = m ^ (e * d) % (p * q) := by rw [← pow_mul]
    _ = m % (p * q) := hn
    _ = m := Nat.mod_eq_of_lt hm

/-! ## Helper lemmas: PKCS#1 v1.5 padding -/

theorem dropWhile_pad (ps msg : List Nat) (h : ∀ b ∈ ps, b ≠ 0) :
    (ps ++ 0 :: msg).dropWhile (fun b => b != 0) = 0 :: msg := by
  induction ps with
  | nil => simp [List.dropWhile_cons]
  | cons a t ih =>
    have ha : a ≠ 0 := h a (by simp)
    simp only [List.cons_append, List.dropWhile_cons]
    simp only [bne_iff_ne, ne_eq, ha, not_false_eq_true, if_true]
    exact ih fun b hb => h b (by simp [hb])

theorem unpad_pad (ps msg : List Nat) (h : ∀ b ∈ ps, b ≠ 0) :
    pkcs1v15_unpad (pkcs1v15_pad ps msg) = some msg := by
  rw [pkcs1v15_pad]
  show pkcs1v15_unpad (0 :: 2 :: (ps ++ 0 :: msg)) = some msg
  rw [show pkcs1v15_unpad (0 :: 2 :: (ps ++ 0 :: msg)) =
        unpadTail ((ps ++ 0 :: msg).dropWhile (fun b => b != 0)) from rfl,
    dropWhile_pad ps msg h]
  rfl

/-! ## Helper lemmas: base64 -/

theorem b64Dec_b64Enc : ∀ v, v < 64 → b64Dec (b64Enc v) = some v := by decide

theorem b64Enc_ne_pad : ∀ v, v < 64 → b64Enc v ≠ '=' := by decide

theorem b64_chunks_roundtrip (bs : List Nat) (h : ∀ b ∈ bs, b < 256) :
    b64DecodeChunks (b64EncodeChunks bs) = some bs := by
  induction bs using b64EncodeChunks.induct with
  | case1 => rfl
  | case2 b1 =>
    have h1 : b1 < 256 := h b1 (by simp)
    rw [b64EncodeChunks, b64DecodeChunks]
    rw [b64Dec_b64Enc _ (by omega), b64Dec_b64Enc _ (by omega)]
    simp only [and_self, if_true, true_and, if_pos rfl]
    congr 1
    congr 1
    omega
  | case3 b1 b2 =>
    have h1 : b1 < 256 := h b1 (by simp)
    have h2 : b2 < 256 := h b2 (by simp)
    rw [b64EncodeChunks, b64DecodeChunks]
    rw [b64Dec_b64Enc _ (by omega), b64Dec_b64Enc _ (by omega)]
    have hne : b64Enc (b2 % 16 * 4) ≠ '=' := b64Enc_ne_pad _ (by omega)
    simp only [hne, false_and, if_false, and_true, if_pos rfl]
    rw [b64Dec_b64Enc _ (by omega)]
    simp only [if_true, Option.some.injEq, List.cons.injEq, and_true]
    omega
  | case4 b1 b2 b3 rest ih =>
    have h1 : b1 < 256 := h b1 (by simp)
    have h2 : b2 < 256 := h b2 (by simp)
    have h3 : b3 < 256 := h b3 (by simp)
    have hrest := ih (fun b hb => h b (by simp [hb]))
    rw [b64EncodeChunks, b64DecodeChunks]
    rw [b64Dec_b64Enc _ (by omega), b64Dec_b64Enc _ (by omega)]
    have hne3 : b64Enc (b2 % 16 * 4 + b3 / 64) ≠ '=' := b64Enc_ne_pad _ (by omega)
    have hne4 : b64Enc (b3 % 64) ≠ '=' := b64Enc_ne_pad _ (by omega)
    simp only [hne3, hne4, false_and, if_false]
    rw [b64Dec_b64Enc _ (by omega), b64Dec_b64Enc _ (by omega), hrest]
    simp only [if_true, Option.some.injEq, List.cons.injEq, and_true]
    omega

theorem b64_roundtrip (bs : List Nat) (h : ∀ b ∈ bs, b < 256) :
    b64Decode (b64Encode bs) = some bs := by
  rw [b64Encode, b64Decode]
  exact b64_chunks_roundtrip bs h

/-! ## Claim C7 -/

/-- C7: for every valid RSA key pair — distinct primes `p`, `q`, exponents
`e`, `d` inverse modulo `(p-1)*(q-1)` — and every secret whose PKCS#1 v1.5
padded block fits below the modulus (the "secret fits the key's maximum
payload size" condition), `_encrypt_password`'s base64-encoded PKCS#1 v1.5
ciphertext decrypts under the matching private key to exactly the original
secret bytes. -/
theorem C7_encrypt_decrypt_roundtrip (p q e d k : Nat) (ps msg : List Nat)
    (hp : p.Prime) (hq : q.Prime) (hpq : p ≠ q)
    (hed : e * d ≡ 1 [MOD (p - 1) * (q - 1)])
    (hps : ∀ b ∈ ps, 0 < b ∧ b < 256) (hmsg : ∀ b ∈ msg, b < 256)
    (hk : k = (pkcs1v15_pad ps msg).length)
    (hem : bytesToNat (pkcs1v15_pad ps msg) < p * q)
    (hn : p * q ≤ 256 ^ k) :
    decrypt_password k ⟨p * q, d⟩ (encrypt_password k ⟨p * q, e⟩ ps msg) = some msg := by
  have hnpos : 0 < p * q := Nat.mul_pos hp.pos hq.pos
  have hemB : ∀ b ∈ pkcs1v15_pad ps msg, b < 256 := by
    intro b hb
    rw [pkcs1v15_pad] at hb
    rcases List.mem_cons.mp hb with rfl | hb1
    · omega
    rcases List.mem_cons.mp hb1 with rfl | hb2
    · omega
    rcases List.mem_append.mp hb2 with h | h
    · exact (hps b h).2
    rcases List.mem_cons.mp h with rfl | h
    · omega
    · exact hmsg b h
  have hcB : ∀ b ∈ pkcs1v15_encrypt k ⟨p * q, e⟩ ps msg, b < 256 :=
    natToBytes_bytes_lt k _
  rw [encrypt_password, decrypt_password, b64_roundtrip _ hcB]
  show pkcs1v15_decrypt k ⟨p * q, d⟩ (pkcs1v15_encrypt k ⟨p * q, e⟩ ps msg) = some msg
  rw [pkcs1v15_decrypt, pkcs1v15_encrypt]
  simp only [rsaep, rsadp]
  rw [bytesToNat_natToBytes k _ (lt_of_lt_of_le (Nat.mod_lt _ hnpos) hn)]
  rw [rsa_roundtrip p q e d _ hp hq hpq hed hem]
  rw [hk, natToBytes_bytesToNat _ hemB]
  exact unpad_pad ps msg fun b hb => by have := (hps b hb).1; omega

/-- C7 witness: the toy key p = 61, q = 53, e = 17, d = 2753 satisfies
every hypothesis with an empty secret and empty padding in a 3-byte
block. -/
theorem C7_encrypt_decrypt_roundtrip_witness :
    decrypt_password 3 ⟨61 * 53, 2753⟩ (encrypt_password 3 ⟨61 * 53, 17⟩ [] []) = some [] :=
  C7_encrypt_decrypt_roundtrip 61 53 17 2753 3 [] [] (by decide) (by decide)
    (by decide) (by decide) (by decide) (by decide) (by decide) (by decide) (by decide)

/-! ## Claim C5 -/

/-- C5 counterexample: the claim says `_get_public_key` produces a blob
with the PEM header and footer as separate lines around the payload; on
the concrete payload "QUJD" the source's wrapping differs from that
line-separated form. -/
theorem C5_pem_counterexample :
    wrap_public_key "QUJD" ≠ wrap_public_key_spec "QUJD" := by decide

/-- C5 (amended): `_get_public_key` wraps the base64 key body by direct
concatenation `header ++ data ++ footer`, adding no newline separators at
all — when the payload has no newline, neither has the wrapped blob. -/
theorem C5_pem_concatenation (data : String) :
    wrap_public_key data = PEM_HEADER ++ data ++ PEM_FOOTER
  ∧ (data.toList.all (fun c => c != '\n') = true →
      (wrap_public_key data).toList.all (fun c => c != '\n') = true) := by
  refine ⟨rfl, fun h => ?_⟩
  have hsplit : (wrap_public_key data).toList =
      PEM_HEADER.toList ++ data.toList ++ PEM_FOOTER.toList := rfl
  rw [hsplit]
  simp only [List.all_append, Bool.and_eq_true]
  exact ⟨⟨by decide, h⟩, by decide⟩

/-- C5 witness: the amended wrapping at the concrete payload "QUJD". -/
theorem C5_pem_concatenation_witness :
    wrap_public_key "QUJD" = PEM_HEADER ++ "QUJD" ++ PEM_FOOTER
  ∧ (wrap_public_key "QUJD").toList.all (fun c => c != '\n') = true :=
  ⟨(C5_pem_concatenation "QUJD").1, (C5_pem_concatenation "QUJD").2 (by decide)⟩

/-! ## Claim C8 -/

/-- C8: `_authenticate` posts a JSON body with exactly the six fields
areaCode, client_id, grant_type, password (the encrypted secret), source,
username, under a 10-second timeout; it returns `data.access_token`
exactly when the response's `msg` equals "Success" and the empty string
otherwise, logging the server's `msg` verbatim in both cases. -/
theorem C8_auth_request_response (username encPass : String) (r : AuthResponse) :
    (authPayload username encPass).map Prod.fst =
      ["areaCode", "client_id", "grant_type", "password", "source", "username"]
  ∧ (authPayload username encPass).lookup "password" = some encPass
  ∧ (authPayload username encPass).lookup "username" = some username
  ∧ AUTH_TIMEOUT_SECONDS = 10
  ∧ (authenticate r).token = (if r.msg = "Success" then r.accessToken else "")
  ∧ (authenticate r).loggedMsg = r.msg := by
  refine ⟨rfl, rfl, rfl, rfl, ?_, ?_⟩ <;>
    rw [authenticate] <;> by_cases h : r.msg = "Success" <;> simp [h]

/-! ## Claim C9 -/

/-- C9 counterexample: `check_entity_exists` is claimed never to raise,
but when the configuration load inside its `try` block fails, the raised
exception is not a `RequestException` and propagates: the call returns
neither True nor False. -/
theorem C9_counterexample :
    check_entity_exists (HAConfigOutcome.loadFailure "boom") (HAReqOutcome.status 200) ≠
        Except.ok true
  ∧ check_entity_exists (HAConfigOutcome.loadFailure "boom") (HAReqOutcome.status 200) ≠
        Except.ok false := by
  constructor <;> simp [check_entity_exists]

/-- C9 (amended): provided the configuration load succeeds,
`check_entity_exists` never raises: it returns True exactly for HTTP
status 200, and False for 404, for every other status, and for any
request exception. -/
theorem C9_entity_check_no_raise (req : HAReqOutcome) :
    (∃ b, check_entity_exists HAConfigOutcome.ok req = Except.ok b)
  ∧ (check_entity_exists HAConfigOutcome.ok req = Except.ok true ↔
      req = HAReqOutcome.status 200) := by
  cases req with
  | status c =>
    by_cases h : c = 200
    · subst h
      exact ⟨⟨true, rfl⟩, by simp [check_entity_exists]⟩
    · refine ⟨⟨false, by simp [check_entity_exists, h]⟩, ?_⟩
      simp [check_entity_exists, h]
  | requestExn m =>
    exact ⟨⟨false, rfl⟩, by simp [check_entity_exists]⟩

/-! ## Helper lemmas: token acquisition and counting -/

theorem gettoken_empty_of_fails (t : TokenEnv) (h : tokenAcqFails t = true) :
    gettoken t = "" := by
  obtain ⟨kf, es, au⟩ := t
  cases kf with
  | exn ek => rfl
  | ok a =>
    cases es with
    | exn ek => rfl
    | ok u =>
      cases au with
      | exn ek => rfl
      | ok r =>
        rw [tokenAcqFails] at h
        simp only [Bool.not_eq_eq_eq_not, Bool.not_true, beq_eq_false_iff_ne, ne_eq] at h
        show (authenticate r).token = ""
        simp [authenticate, h]

theorem countP_add_countP_not {α : Type} (p : α → Bool) (l : List α) :
    l.countP p + l.countP (fun a => !p a) = l.length := by
  induction l with
  | nil => rfl
  | cons a t ih =>
    cases hpa : p a <;> simp [List.countP_cons, hpa] <;> omega

/-! ## Claim C1 -/

/-- C1: for every device whose settings-sync cycle runs with a non-empty
staged setting, `execute_settings_management` always ends with the staging
entity reset to the empty string: the reset is the final step of the cycle
and executes whatever the download and forwarded-update outcomes are
(the environment quantifies over success and failure of both). -/
theorem C1_staging_always_reset (env : Env) (i : Nat) (serial : String) (st : RunState)
    (h : st.staged serial ≠ "") :
    ((execute_settings_management env i serial st).2).staged serial = ""
  ∧ Event.stagingReset i ∈ (execute_settings_management env i serial st).1
  ∧ (execute_settings_management env i serial st).1.getLast? =
      some (Event.stagingReset i) := by
  refine ⟨by simp [execute_settings_management], by simp [execute_settings_management], ?_⟩
  have hsplit : (execute_settings_management env i serial st).1 =
      (Event.settingsDownloaded i (env.downloadOk i) ::
        Event.cacheRead i (if env.downloadOk i then some (CacheTag.written i) else st.cache) ::
        (if st.staged serial = "" then [] else [Event.updateForwarded i (env.updateOk i)])) ++
      [Event.stagingReset i] := rfl
  rw [hsplit, List.getLast?_concat]

/-- C1 witness: device "A1" with staged value "0600"; the cycle ends reset. -/
theorem C1_staging_always_reset_witness :
    ((execute_settings_management envScenario 0 "A1" stStagedA1).2).staged "A1" = ""
  ∧ Event.stagingReset 0 ∈ (execute_settings_management envScenario 0 "A1" stStagedA1).1
  ∧ (execute_settings_management envScenario 0 "A1" stStagedA1).1.getLast? =
      some (Event.stagingReset 0) :=
  C1_staging_always_reset envScenario 0 "A1" stStagedA1 (by decide)

/-! ## Claim C3 -/

/-- C3: if token acquisition fails for any reason — an exception in the
key fetch, the encryption or the login POST (HTTP failure, timeout, JSON
parse failure), or a response whose `msg` is not "Success" — then
`gettoken` returns the empty token without raising, and `main` runs no
telemetry fetch and no settings-sync step for any device: the whole trace
is just the completion event. -/
theorem C3_token_failure_aborts (env : Env) (h : tokenAcqFails env.token = true) :
    gettoken env.token = "" ∧ (main env).1 = [Event.completed] := by
  have hg := gettoken_empty_of_fails env.token h
  refine ⟨hg, ?_⟩
  rw [main, if_pos hg]

/-- C3 witness: the key fetch times out; the run degenerates to completion
only. -/
theorem C3_token_failure_aborts_witness :
    gettoken envTokenFails.token = "" ∧ (main envTokenFails).1 = [Event.completed] :=
  C3_token_failure_aborts envTokenFails (by decide)

/-! ## Claim C4 -/

/-- C4: `execute_api_calls` runs all 8 registered telemetry operations and
joins them all: the result has one entry per registry label in registry
order (none skipped, none duplicated — the registry has no duplicate
labels), each operation's outcome depending only on its own external call;
when exactly one operation's call raises, exactly 1 result is a logged
failure and the other 7 completed. -/
theorem C4_fanout_all_operations (env : Env) (i : Nat)
    (h : api_calls.countP (fun l => (env.fetchExn i l).isSome) = 1) :
    (execute_api_calls env i).length = 8
  ∧ (execute_api_calls env i).map eventLabel = api_calls.map some
  ∧ api_calls.Nodup
  ∧ (execute_api_calls env i).countP eventIsFetchError = 1
  ∧ (execute_api_calls env i).countP eventIsFetchOk = 7 := by
  have hlabel : ∀ l, eventLabel (fetch_data env i l) = some l := by
    intro l; rw [fetch_data]; cases env.fetchExn i l <;> rfl
  have herr : ∀ l, eventIsFetchError (fetch_data env i l) = (env.fetchExn i l).isSome := by
    intro l; rw [fetch_data]; cases env.fetchExn i l <;> rfl
  have hok : ∀ l, eventIsFetchOk (fetch_data env i l) = !(env.fetchExn i l).isSome := by
    intro l; rw [fetch_data]; cases env.fetchExn i l <;> rfl
  have herrCount : (execute_api_calls env i).countP eventIsFetchError = 1 := by
    rw [execute_api_calls, List.countP_map]
    calc api_calls.countP (eventIsFetchError ∘ fetch_data env i)
        = api_calls.countP (fun l => (env.fetchExn i l).isSome) :=
          List.countP_congr fun l _ => by rw [Function.comp_apply, herr l]
      _ = 1 := h
  refine ⟨by rw [execute_api_calls, List.length_map]; rfl, ?_, by decide, herrCount, ?_⟩
  · rw [execute_api_calls, List.map_map]
    exact List.map_congr_left fun l _ => hlabel l
  · have hokCount : (execute_api_calls env i).countP eventIsFetchOk =
        api_calls.countP (fun l => !(env.fetchExn i l).isSome) := by
      rw [execute_api_calls, List.countP_map]
      exact List.countP_congr fun l _ => by rw [Function.comp_apply, hok l]
    have hsum := countP_add_countP_not (fun l => (env.fetchExn i l).isSome) api_calls
    rw [hokCount]
    have hlen : api_calls.length = 8 := rfl
    omega

/-- C4 witness: in the environment where exactly the "PV Data" call
raises, the joined trace has 8 entries, 1 failed, 7 succeeded. -/
theorem C4_fanout_all_operations_witness :
    (execute_api_calls envOneFetchFails 0).length = 8
  ∧ (execute_api_calls envOneFetchFails 0).map eventLabel = api_calls.map some
  ∧ api_calls.Nodup
  ∧ (execute_api_calls envOneFetchFails 0).countP eventIsFetchError = 1
  ∧ (execute_api_calls envOneFetchFails 0).countP eventIsFetchOk = 7 :=
  C4_fanout_all_operations envOneFetchFails 0 (by decide)

/-! ## Helper lemmas: trace membership for one device block -/

theorem process_inverter_trace_true (env : Env) (i : Nat) (serial : String) (st : RunState)
    (hc : env.connOk i = true) :
    (process_inverter env i serial st).1 =
      (if st.cache.isSome then [Event.cacheRemoved i] else []) ++
      Event.connTested i true ::
      (api_calls.map (fetch_data env i) ++
        (Event.settingsDownloaded i (env.downloadOk i) ::
         Event.cacheRead i (if env.downloadOk i then some (CacheTag.written i) else none) ::
         (if st.staged serial = "" then [] else [Event.updateForwarded i (env.updateOk i)]) ++
         [Event.stagingReset i])) := by
  rw [process_inverter, if_pos hc]
  rfl

theorem process_inverter_trace_false (env : Env) (i : Nat) (serial : String) (st : RunState)
    (hc : env.connOk i = false) :
    (process_inverter env i serial st).1 =
      (if st.cache.isSome then [Event.cacheRemoved i] else []) ++
      [Event.connTested i false, Event.deviceSkipped i] := by
  rw [process_inverter, if_neg (by simp [hc])]

set_option maxHeartbeats 1000000 in
theorem process_inverter_mem (env : Env) (i : Nat) (serial : String) (st : RunState)
    (ev : Event) :
    ev ∈ (process_inverter env i serial st).1 ↔
      (st.cache.isSome = true ∧ ev = Event.cacheRemoved i)
    ∨ ev = Event.connTested i (env.connOk i)
    ∨ (env.connOk i = false ∧ ev = Event.deviceSkipped i)
    ∨ (env.connOk i = true ∧ ∃ l, l ∈ api_calls ∧ fetch_data env i l = ev)
    ∨ (env.connOk i = true ∧ ev = Event.settingsDownloaded i (env.downloadOk i))
    ∨ (env.connOk i = true ∧
        ev = Event.cacheRead i (if env.downloadOk i then some (CacheTag.written i) else none))
    ∨ (env.connOk i = true ∧ st.staged serial ≠ "" ∧
        ev = Event.updateForwarded i (env.updateOk i))
    ∨ (env.connOk i = true ∧ ev = Event.stagingReset i) := by
  by_cases hc : env.connOk i
  · rw [process_inverter_trace_true env i serial st hc, hc]
    by_cases hca : st.cache.isSome <;> by_cases hstg : st.staged serial = "" <;>
      simp [hca, hstg]
  · simp only [Bool.not_eq_true] at hc
    rw [process_inverter_trace_false env i serial st hc, hc]
    by_cases hca : st.cache.isSome <;> simp [hca]

theorem idx_of_mem_process (env : Env) (i : Nat) (serial : String) (st : RunState)
    (ev : Event) (h : ev ∈ (process_inverter env i serial st).1) : ev.idx = some i := by
  rcases (process_inverter_mem env i serial st ev).mp h with
    ⟨_, rfl⟩ | rfl | ⟨_, rfl⟩ | ⟨_, l, _, hl⟩ | ⟨_, rfl⟩ | ⟨_, rfl⟩ | ⟨_, _, rfl⟩ | ⟨_, rfl⟩
  case' inr.inr.inr.inl.intro.intro.intro =>
    rw [← hl, fetch_data]
    cases env.fetchExn i l
  all_goals rfl

theorem idx_of_mem_run (env : Env) (ev : Event) :
    ∀ (l : List String) (i : Nat) (st : RunState),
      ev ∈ (runDevices env l i st).1 →
      ∃ j, ev.idx = some j ∧ i ≤ j ∧ j < i + l.length := by
  intro l
  induction l with
  | nil =>
    intro i st h
    rw [runDevices] at h
    simp at h
  | cons s rest ih =>
    intro i st h
    rw [runDevices] at h
    rcases List.mem_append.mp h with h1 | h2
    · exact ⟨i, idx_of_mem_process env i s st ev h1, Nat.le_refl i, by simp⟩
    · obtain ⟨j, hj, hij, hlt⟩ := ih (i + 1) _ h2
      exact ⟨j, hj, by omega, by simp at hlt ⊢; omega⟩

theorem mem_run_of_forall_state (env : Env) (ev : Event) :
    ∀ (l : List String) (i : Nat) (st : RunState) (j : Nat),
      i ≤ j → j < i + l.length →
      (∀ serial st', ev ∈ (process_inverter env j serial st').1) →
      ev ∈ (runDevices env l i st).1 := by
  intro l
  induction l with
  | nil =>
    intro i st j h1 h2 _
    simp at h2
    omega
  | cons s rest ih =>
    intro i st j h1 h2 hall
    rw [runDevices]
    rcases eq_or_lt_of_le h1 with rfl | hlt
    · exact List.mem_append.mpr (Or.inl (hall s st))
    · refine List.mem_append.mpr (Or.inr (ih (i + 1) _ j hlt ?_ hall))
      simp at h2 ⊢
      omega

theorem mem_run_elim (env : Env) (ev : Event) :
    ∀ (l : List String) (i : Nat) (st : RunState),
      ev ∈ (runDevices env l i st).1 →
      ∃ j serial st', i ≤ j ∧ j < i + l.length ∧
        ev ∈ (process_inverter env j serial st').1 := by
  intro l
  induction l with
  | nil =>
    intro i st h
    rw [runDevices] at h
    simp at h
  | cons s rest ih =>
    intro i st h
    rw [runDevices] at h
    rcases List.mem_append.mp h with h1 | h2
    · exact ⟨i, s, st, Nat.le_refl i, by simp, h1⟩
    · obtain ⟨j, serial, st', h1, h2', h3⟩ := ih (i + 1) _ h2
      exact ⟨j, serial, st', by omega, by simp at h2' ⊢; omega, h3⟩

theorem mem_main_iff_mem_run (env : Env) (ev : Event) (j : Nat)
    (hidx : ev.idx = some j) (htok : gettoken env.token ≠ "") :
    ev ∈ (main env).1 ↔ ev ∈ (runDevices env env.serials 0 (initialState env)).1 := by
  rw [main, if_neg htok]
  constructor
  · intro h
    rcases List.mem_append.mp h with h1 | h2
    · exact h1
    · simp at h2
      rw [h2] at hidx
      exact absurd hidx (by rw [Event.idx]; simp)
  · intro h
    exact List.mem_append.mpr (Or.inl h)

theorem fetch_data_shape (env : Env) (i : Nat) (l : String) :
    fetch_data env i l = Event.fetched i l ∨
      fetch_data env i l = Event.fetchErrorLogged i l := by
  rw [fetch_data]
  cases env.fetchExn i l
  · exact Or.inl rfl
  · exact Or.inr rfl

theorem mem_main_elim (env : Env) (ev : Event) (j : Nat) (hidx : ev.idx = some j)
    (htok : gettoken env.token ≠ "") (h : ev ∈ (main env).1) :
    ∃ serial st', ev ∈ (process_inverter env j serial st').1 := by
  have h' := (mem_main_iff_mem_run env ev j hidx htok).mp h
  obtain ⟨j', serial, st', _, _, hmem⟩ := mem_run_elim env ev env.serials 0 _ h'
  have hj' := idx_of_mem_process env j' serial st' ev hmem
  rw [hidx] at hj'
  obtain rfl : j' = j := by injection hj' with h0; exact h0.symm
  exact ⟨serial, st', hmem⟩

theorem mem_main_intro (env : Env) (ev : Event) (j : Nat) (hidx : ev.idx = some j)
    (htok : gettoken env.token ≠ "") (hj : j < env.serials.length)
    (hall : ∀ serial st', ev ∈ (process_inverter env j serial st').1) :
    ev ∈ (main env).1 :=
  (mem_main_iff_mem_run env ev j hidx htok).mpr
    (mem_run_of_forall_state env ev env.serials 0 _ j (Nat.zero_le j) (by omega) hall)

/-! ## Claim C2 -/

/-- C2: no exception inside a single telemetry fetch nor a failure in a
settings-sync step terminates the orchestrator: for every environment —
every combination of raised fetch exceptions and failed sync steps — the
run trace still ends with the completion event; with a valid token every
device's connectivity test still runs, and a raised fetch exception is
caught and logged under its operation's label while the run continues. -/
theorem C2_no_exception_terminates_run (env : Env) :
    (main env).1.getLast? = some Event.completed
  ∧ (gettoken env.token ≠ "" →
      ∀ j, j < env.serials.length → Event.connTested j (env.connOk j) ∈ (main env).1)
  ∧ (gettoken env.token ≠ "" →
      ∀ j label, j < env.serials.length → env.connOk j = true → label ∈ api_calls →
        (env.fetchExn j label).isSome = true →
        Event.fetchErrorLogged j label ∈ (main env).1) := by
  refine ⟨?_, ?_, ?_⟩
  · rw [main]
    split
    · rfl
    · rw [List.getLast?_concat]
  · intro htok j hj
    refine mem_main_intro env _ j rfl htok hj fun serial st' => ?_
    exact (process_inverter_mem env j serial st' _).mpr (Or.inr (Or.inl rfl))
  · intro htok j label hj hcok hlab hexn
    refine mem_main_intro env _ j rfl htok hj fun serial st' => ?_
    apply (process_inverter_mem env j serial st' _).mpr
    refine Or.inr (Or.inr (Or.inr (Or.inl ⟨hcok, label, hlab, ?_⟩)))
    obtain ⟨ek, hek⟩ := Option.isSome_iff_exists.mp hexn
    rw [fetch_data, hek]

/-- C2 witness: one device, the "PV Data" operation raises; its failure is
logged, the connectivity test still happened, and the run completed. -/
theorem C2_no_exception_terminates_run_witness :
    (main envOneFetchFails).1.getLast? = some Event.completed
  ∧ Event.connTested 0 (envOneFetchFails.connOk 0) ∈ (main envOneFetchFails).1
  ∧ Event.fetchErrorLogged 0 "PV Data" ∈ (main envOneFetchFails).1 :=
  ⟨(C2_no_exception_terminates_run envOneFetchFails).1,
   (C2_no_exception_terminates_run envOneFetchFails).2.1 (by decide) 0 (by decide),
   (C2_no_exception_terminates_run envOneFetchFails).2.2 (by decide) 0 "PV Data"
     (by decide) (by decide) (by decide) (by decide)⟩

/-! ## Claim C6 -/

/-- C6: with a valid token, a listed device's telemetry fetch set and
settings-sync cycle execute exactly when its connectivity round-trip test
succeeds — the staging-reset event and the per-label fetch events occur in
the run trace iff the test passed; the skip event occurs iff it failed —
and the iff holds at every device index, so a failing device does not
abort the devices after it. -/
theorem C6_connectivity_gates_processing (env : Env) (j : Nat)
    (htok : gettoken env.token ≠ "") (hj : j < env.serials.length) :
    (Event.stagingReset j ∈ (main env).1 ↔ env.connOk j = true)
  ∧ (Event.deviceSkipped j ∈ (main env).1 ↔ env.connOk j = false)
  ∧ (∀ label, label ∈ api_calls →
      ((Event.fetched j label ∈ (main env).1 ∨
        Event.fetchErrorLogged j label ∈ (main env).1) ↔ env.connOk j = true)) := by
  refine ⟨⟨?_, ?_⟩, ⟨?_, ?_⟩, ?_⟩
  · intro h
    obtain ⟨serial, st', hmem⟩ := mem_main_elim env (Event.stagingReset j) j rfl htok h
    rcases (process_inverter_mem env j serial st' _).mp hmem with
      ⟨_, he⟩ | he | ⟨_, he⟩ | ⟨_, l, _, he⟩ | ⟨_, he⟩ | ⟨_, he⟩ | ⟨_, _, he⟩ | ⟨hc, _⟩
    · simp at he
    · simp at he
    · simp at he
    · rcases fetch_data_shape env j l with hf | hf <;> rw [hf] at he <;> simp at he
    · simp at he
    · simp at he
    · simp at he
    · exact hc
  · intro hcok
    refine mem_main_intro env _ j rfl htok hj fun serial st' => ?_
    exact (process_inverter_mem env j serial st' _).mpr
      (Or.inr (Or.inr (Or.inr (Or.inr (Or.inr (Or.inr (Or.inr ⟨hcok, rfl⟩)))))))
  · intro h
    obtain ⟨serial, st', hmem⟩ := mem_main_elim env (Event.deviceSkipped j) j rfl htok h
    rcases (process_inverter_mem env j serial st' _).mp hmem with
      ⟨_, he⟩ | he | ⟨hc, _⟩ | ⟨_, l, _, he⟩ | ⟨_, he⟩ | ⟨_, he⟩ | ⟨_, _, he⟩ | ⟨_, he⟩
    · simp at he
    · simp at he
    · exact hc
    · rcases fetch_data_shape env j l with hf | hf <;> rw [hf] at he <;> simp at he
    · simp at he
    · simp at he
    · simp at he
    · simp at he
  · intro hcf
    refine mem_main_intro env _ j rfl htok hj fun serial st' => ?_
    exact (process_inverter_mem env j serial st' _).mpr
      (Or.inr (Or.inr (Or.inl ⟨hcf, rfl⟩)))
  · intro label hlab
    constructor
    · intro h
      have hget : ∃ ev, (ev = Event.fetched j label ∨ ev = Event.fetchErrorLogged j label) ∧
          ev ∈ (main env).1 := by
        rcases h with h | h
        · exact ⟨_, Or.inl rfl, h⟩
        · exact ⟨_, Or.inr rfl, h⟩
      obtain ⟨ev, hshape, hmm⟩ := hget
      have hidx : ev.idx = some j := by rcases hshape with rfl | rfl <;> rfl
      obtain ⟨serial, st', hmem⟩ := mem_main_elim env ev j hidx htok hmm
      rcases (process_inverter_mem env j serial st' ev).mp hmem with
        ⟨_, he⟩ | he | ⟨_, he⟩ | ⟨hc, _⟩ | ⟨_, he⟩ | ⟨_, he⟩ | ⟨_, _, he⟩ | ⟨_, he⟩
      · rcases hshape with rfl | rfl <;> simp at he
      · rcases hshape with rfl | rfl <;> simp at he
      · rcases hshape with rfl | rfl <;> simp at he
      · exact hc
      · rcases hshape with rfl | rfl <;> simp at he
      · rcases hshape with rfl | rfl <;> simp at he
      · rcases hshape with rfl | rfl <;> simp at he
      · rcases hshape with rfl | rfl <;> simp at he
    · intro hcok
      cases hek : env.fetchExn j label with
      | none =>
        refine Or.inl (mem_main_intro env _ j rfl htok hj fun serial st' => ?_)
        apply (process_inverter_mem env j serial st' _).mpr
        exact Or.inr (Or.inr (Or.inr (Or.inl ⟨hcok, label, hlab, by rw [fetch_data, hek]⟩)))
      | some ek =>
        refine Or.inr (mem_main_intro env _ j rfl htok hj fun serial st' => ?_)
        apply (process_inverter_mem env j serial st' _).mpr
        exact Or.inr (Or.inr (Or.inr (Or.inl ⟨hcok, label, hlab, by rw [fetch_data, hek]⟩)))

/-- C6 witness: the spec's end-to-end scenario — devices ["A1", "A2"],
connectivity succeeds for "A1" and fails for "A2": "A1" runs its sync
cycle, "A2" is skipped. -/
theorem C6_connectivity_gates_processing_witness :
    Event.stagingReset 0 ∈ (main envScenario).1
  ∧ Event.deviceSkipped 1 ∈ (main envScenario).1 :=
  ⟨((C6_connectivity_gates_processing envScenario 0 (by decide) (by decide)).1).mpr (by decide),
   ((C6_connectivity_gates_processing envScenario 1 (by decide) (by decide)).2.1).mpr (by decide)⟩

/-! ## Claim C10 -/

/-- C10: at the start of every device iteration — before the connectivity
test, hence also for devices that are then skipped — the transient
settings.json cache file is deleted if present, and the state after the
iteration never retains a stale cache; consequently the cache the
settings-sync reconciliation reads is never left over from a previous
device or run: every cacheRead event carries either no cache or the cache
written by that same iteration's download. -/
theorem C10_cache_cleaned_per_device (env : Env) :
    (∀ i serial st, ∃ rest,
        (process_inverter env i serial st).1 =
          (if st.cache.isSome then [Event.cacheRemoved i] else []) ++
          Event.connTested i (env.connOk i) :: rest)
  ∧ (∀ j tag, Event.cacheRead j tag ∈ (main env).1 →
      tag = none ∨ tag = some (CacheTag.written j)) := by
  constructor
  · intro i serial st
    by_cases hc : env.connOk i
    · rw [process_inverter_trace_true env i serial st hc, hc]
      exact ⟨_, rfl⟩
    · simp only [Bool.not_eq_true] at hc
      rw [process_inverter_trace_false env i serial st hc, hc]
      exact ⟨[Event.deviceSkipped i], rfl⟩
  · intro j tag h
    rw [main] at h
    split at h
    · simp at h
    · rcases List.mem_append.mp h with h1 | h1
      swap
      · simp at h1
      obtain ⟨j', serial, st', _, _, hmem⟩ := mem_run_elim env _ env.serials 0 _ h1
      have hj' := idx_of_mem_process env j' serial st' _ hmem
      have hjj : j = j' := by injection hj'
      rw [hjj]
      rw [← hjj] at hmem
      rcases (process_inverter_mem env j serial st' _).mp hmem with
        ⟨_, he⟩ | he | ⟨_, he⟩ | ⟨_, l, _, he⟩ | ⟨_, he⟩ | ⟨_, he⟩ | ⟨_, _, he⟩ | ⟨_, he⟩
      · simp at he
      · simp at he
      · simp at he
      · rcases fetch_data_shape env j l with hf | hf <;> rw [hf] at he <;> simp at he
      · simp at he
      · cases hdl : env.downloadOk j <;> rw [hdl] at he <;> simp at he <;> simp [he, hjj]
      · simp at he
      · simp at he

/-- C10 witness: in the scenario run a cacheRead event occurs at iteration
0 and indeed carries that iteration's own freshly written cache. -/
theorem C10_cache_cleaned_per_device_witness :
    some (CacheTag.written 0) = none ∨
      some (CacheTag.written 0) = some (CacheTag.written 0) :=
  (C10_cache_cleaned_per_device envScenario).2 0 (some (CacheTag.written 0)) (by decide)

end SolarSynk
